import Mathlib

/-!
Verification of the gap-detection / docs-ops pipeline
(`scripts/gap_detection/*.py`, `scripts/check_docs_contract.py`,
`scripts/evaluate_kpi_sla.py`) against its natural-language specification.

The Python code is shallowly embedded: dataclasses become structures,
in-place mutation becomes explicit state passing (folds), Python `int`
becomes `Int`/`Nat`, Python `float` values that only feed comparisons and
exact divisions are embedded as `Rat`.
-/

set_option maxHeartbeats 1000000

namespace DocsPipeline

/-- Embeds `DocumentationGap` dataclass from `scripts/gap_detection/gap_aggregator.py`.
`created_at` is `datetime.now().isoformat()` in Python; here it is an ordinary
field carrying whatever timestamp string the run produced. -/
structure DocumentationGap where
  id : String
  title : String
  description : String
  source : String
  category : String
  suggested_doc_type : String
  priority : String
  frequency : Int := 1
  keywords : List String := []
  related_files : List String := []
  sample_queries : List String := []
  action_required : String := ""
  status : String := "new"
  created_at : String := ""
  deriving Repr, DecidableEq

/-- The merge key `f"{gap.category}:{gap.suggested_doc_type}"` used by
`GapAggregator._deduplicate_gaps`. -/
def dedupKey (g : DocumentationGap) : String :=
  g.category ++ ":" ++ g.suggested_doc_type

/-- The in-place merge performed by `GapAggregator._deduplicate_gaps` when a
gap's key was already seen: `existing.frequency += gap.frequency`,
`existing.sample_queries.extend(gap.sample_queries)`,
`existing.keywords = list(set(existing.keywords + gap.keywords))` (a set has
no specified order; we keep first occurrences), and
`if gap.priority == 'high': existing.priority = 'high'`. -/
def mergeGapInto (existing gap : DocumentationGap) : DocumentationGap :=
  { existing with
    frequency := existing.frequency + gap.frequency
    sample_queries := existing.sample_queries ++ gap.sample_queries
    keywords := (existing.keywords ++ gap.keywords).eraseDups
    priority := if gap.priority = "high" then "high" else existing.priority }

/-- One iteration of the loop in `GapAggregator._deduplicate_gaps`.  The
Python `seen` dict and `unique_gaps` list alias the same objects, so mutating
`seen[key]` mutates the corresponding entry of `unique_gaps`; the accumulator
here is `unique_gaps` itself, with the merge applied to the (unique) entry
whose key matches. -/
def dedupStep (acc : List DocumentationGap) (gap : DocumentationGap) :
    List DocumentationGap :=
  if acc.any (fun g => dedupKey g == dedupKey gap) then
    acc.map (fun g => if dedupKey g == dedupKey gap then mergeGapInto g gap else g)
  else
    acc ++ [gap]

/-- Embeds `GapAggregator._deduplicate_gaps`. -/
def deduplicate_gaps (gaps : List DocumentationGap) : List DocumentationGap :=
  gaps.foldl dedupStep []

/-- A concrete high-priority code gap, used to instantiate theorems. -/
def gapW1 : DocumentationGap :=
  { id := "CODE-0001", title := "Webhook: add retry", description := "Document webhook retry",
    source := "code", category := "webhook", suggested_doc_type := "how-to",
    priority := "high", frequency := 2 }

/-- A concrete low-priority search gap sharing `gapW1`'s dedup key. -/
def gapW2 : DocumentationGap :=
  { id := "SRCH-0002", title := "Search: webhook retry", description := "no results",
    source := "search", category := "webhook", suggested_doc_type := "how-to",
    priority := "low", frequency := 3 }

/-- A medium-priority gap for the order-dependence counterexample. -/
def gapMed : DocumentationGap :=
  { id := "COMM-0001", title := "Authentication: oauth", description := "d",
    source := "community", category := "authentication", suggested_doc_type := "how-to",
    priority := "medium", frequency := 1 }

/-- A low-priority gap with the same dedup key as `gapMed`. -/
def gapLow : DocumentationGap :=
  { id := "SRCH-0002", title := "Search: \"oauth\"", description := "d",
    source := "search", category := "authentication", suggested_doc_type := "how-to",
    priority := "low", frequency := 1 }

/-- Whether the list contains a gap with dedup key `k` and priority `"high"`. -/
def hasHighGap (l : List DocumentationGap) (k : String) : Bool :=
  l.any (fun g => dedupKey g == k && g.priority == "high")

/-! ## String helpers shared by the embeddings

Python string `.lower()` and the substring test `needle in haystack`. -/

/-- Python `str.lower()` (the paths and queries involved are ASCII).
Defined through the character list so that it reduces definitionally. -/
def pyLower (s : String) : String :=
  ⟨s.data.map Char.toLower⟩

/-- Embeds `needle.isPrefixOf` of some suffix of `haystack`: Python `needle in haystack`. -/
def listHasInfix : List Char → List Char → Bool
  | h, n =>
    if n.isPrefixOf h then true
    else
      match h with
      | [] => false
      | _ :: t => listHasInfix t n

/-- Python substring test `sub in s`. -/
def strContainsSub (s sub : String) : Bool :=
  listHasInfix s.data sub.data

/-- Embeds `s.startswith(p)` / an anchored `^p` regex match. -/
def strStarts (s p : String) : Bool :=
  p.data.isPrefixOf s.data

/-- Embeds `s.endswith(p)` / an anchored `p$` regex match. -/
def strEnds (s p : String) : Bool :=
  p.data.reverse.isPrefixOf s.data.reverse

/-- Drop the last `n` characters of `s`. -/
def strDropRight (s : String) (n : Nat) : String :=
  ⟨s.data.take (s.data.length - n)⟩

/-- Drop the first `n` characters of `s`. -/
def strDropLeft (s : String) (n : Nat) : String :=
  ⟨s.data.drop n⟩

/-! ## `scripts/check_docs_contract.py` -/

/-- Embeds `re.search` (with `re.IGNORECASE`) of a pattern `name.*\.(ext1|ext2|...)$`
against `path`: the path ends with one of the extensions and `name` occurs
somewhere before the extension.  The caller passes the path already lowered. -/
def matchNameThenExt (path name : String) (exts : List String) : Bool :=
  exts.any (fun ext => strEnds path ext && strContainsSub (strDropRight path ext.data.length) name)

/-- Embeds `re.search` of `^src/.*/(routes|controllers|handlers|public|sdk)/`:
the path starts with `src/` and, after those four characters, contains a
`/<dir>/` component. -/
def matchSrcSubdir (path : String) : Bool :=
  strStarts path "src/" &&
    (["routes", "controllers", "handlers", "public", "sdk"].any
      (fun d => strContainsSub (strDropLeft path 4) ("/" ++ d ++ "/")))

/-- Embeds `_matches_any(path, INTERFACE_PATTERNS)`: the seven interface regexes of
`check_docs_contract.py`, each embedded as the predicate it denotes on the
case-folded path. -/
def interfaceMatch (rawPath : String) : Bool :=
  let path := pyLower rawPath
  strStarts path "api/" ||
  matchNameThenExt path "openapi" [".yaml", ".yml", ".json"] ||
  matchNameThenExt path "swagger" [".yaml", ".yml", ".json"] ||
  matchNameThenExt path "api-spec" [".yaml", ".yml", ".json"] ||
  matchSrcSubdir path ||
  strStarts path "sdk/" ||
  strStarts path "clients/"

/-- Embeds `_matches_any(path, DOC_PATTERNS)`: the six doc regexes (the last four
are fully anchored, hence equality on the case-folded path). -/
def docMatch (rawPath : String) : Bool :=
  let path := pyLower rawPath
  strStarts path "docs/" ||
  strStarts path "templates/" ||
  path.data == ".vscode/docs.code-snippets".data ||
  path.data == "readme_setup.md".data ||
  path.data == "setup_guide.md".data ||
  path.data == "setup_for_projects.md".data

/-- Return value of `evaluate_contract`. -/
structure ContractReport where
  interface_changed : List String
  docs_changed : List String
  blocked : Bool
  deriving Repr, DecidableEq

/-- Embeds `evaluate_contract(files)` with the default pattern sets:
`blocked = bool(interface_changed) and not bool(docs_changed)`. -/
def evaluate_contract (files : List String) : ContractReport :=
  { interface_changed := files.filter (fun p => interfaceMatch p)
    docs_changed := files.filter (fun p => docMatch p)
    blocked := !(files.filter (fun p => interfaceMatch p)).isEmpty &&
      (files.filter (fun p => docMatch p)).isEmpty }

/-! ## `scripts/gap_detection/algolia_parser.py` -/

/-- Embeds `SearchQuery` dataclass.  `click_through_rate` is a Python float holding a
ratio; it only ever feeds comparisons and an exact division by 100, so it is
embedded as a rational. -/
structure SearchQuery where
  query : String
  count : Int
  results_count : Int
  click_through_rate : Rat
  category : String := "general"
  suggested_doc_type : String := "how-to"
  priority : String := "medium"
  deriving Repr, DecidableEq

/-- Embeds `AlgoliaAnalytics.CATEGORY_KEYWORDS`, in dict insertion order. -/
def ALGOLIA_CATEGORY_KEYWORDS : List (String × List String) :=
  [("webhook", ["webhook", "trigger", "http trigger"]),
   ("authentication", ["auth", "oauth", "api key", "credential", "token"]),
   ("error", ["error", "fail", "not working", "issue"]),
   ("integration", ["integrate", "connect", "node"]),
   ("workflow", ["workflow", "automation", "flow"]),
   ("data", ["json", "transform", "parse", "format", "map"]),
   ("deployment", ["deploy", "install", "docker", "self-host"])]

/-- The category loop of `AlgoliaAnalytics._enrich_query`: the inner `break`
only leaves the keyword loop, so each matching category overwrites the
previous assignment and the LAST match in table order wins. -/
def algoliaCategory (queryLower : String) (initial : String) : String :=
  ALGOLIA_CATEGORY_KEYWORDS.foldl
    (fun cur ck => if ck.2.any (fun kw => strContainsSub queryLower kw) then ck.1 else cur)
    initial

/-- The doc-type chain of `AlgoliaAnalytics._enrich_query`. -/
def algoliaDocType (queryLower : String) : String :=
  if ["error", "fail", "not working", "issue"].any (fun w => strContainsSub queryLower w) then
    "troubleshooting"
  else if ["how to", "how do", "configure", "setup"].any (fun w => strContainsSub queryLower w) then
    "how-to"
  else if ["what is", "explain", "understand"].any (fun w => strContainsSub queryLower w) then
    "concept"
  else
    "reference"

/-- The priority chain of `AlgoliaAnalytics._enrich_query`.  The Python
literal `0.1` becomes the rational `1/10`. -/
def algoliaPriority (q : SearchQuery) : String :=
  if q.results_count = 0 ∧ 10 ≤ q.count then "high"
  else if q.results_count = 0 ∧ 5 ≤ q.count then "medium"
  else if q.click_through_rate < mkRat 1 10 ∧ 20 ≤ q.count then "high"
  else "low"

/-- Embeds `AlgoliaAnalytics._enrich_query` (as a pure update of the record the
Python code mutates in place). -/
def enrich_query (q : SearchQuery) : SearchQuery :=
  let ql := pyLower q.query
  { q with
    category := algoliaCategory ql q.category
    suggested_doc_type := algoliaDocType ql
    priority := algoliaPriority q }

/-- Embeds `CommunityCollector.CATEGORY_KEYWORDS`, in dict insertion order. -/
def COMMUNITY_CATEGORY_KEYWORDS : List (String × List String) :=
  [("webhook", ["webhook", "trigger", "http", "callback", "endpoint"]),
   ("authentication", ["auth", "oauth", "api key", "credential", "token", "login", "sso"]),
   ("error", ["error", "fail", "not working", "issue", "problem", "bug", "broken"]),
   ("integration", ["integrate", "connect", "api", "service", "node"]),
   ("workflow", ["workflow", "automation", "flow", "execute", "run"]),
   ("data", ["data", "json", "transform", "map", "parse", "format"]),
   ("scheduling", ["schedule", "cron", "timer", "interval", "trigger"]),
   ("deployment", ["deploy", "install", "docker", "kubernetes", "self-host", "cloud"]),
   ("performance", ["slow", "performance", "timeout", "memory", "scale"]),
   ("security", ["security", "permission", "access", "encrypt", "ssl", "https"])]

/-- Embeds `CommunityCollector._categorize_topic`: returns on the FIRST matching
category, `"general"` when none matches. -/
def categorize_topic (title : String) : String :=
  let tl := pyLower title
  match COMMUNITY_CATEGORY_KEYWORDS.find?
      (fun ck => ck.2.any (fun kw => strContainsSub tl kw)) with
  | some ck => ck.1
  | none => "general"

/-! ## `scripts/evaluate_kpi_sla.py`

KPI JSON numbers are embedded as rationals; Python `int(x)` truncates toward
zero.  The interpolated breach messages are reproduced up to Python's numeric
formatting (`:.1f` etc.), which no claim inspects. -/

/-- Python `int()` applied to a number: truncation toward zero. -/
def pyTruncInt (q : Rat) : Int :=
  if 0 ≤ q then q.floor else q.ceil

/-- A KPI metrics JSON object; `none` models an absent key
(`current.get(key, 0)` then supplies the default). -/
structure KpiMetrics where
  quality_score : Option Rat := none
  stale_pct : Option Rat := none
  gap_high : Option Rat := none
  deriving Repr, DecidableEq

/-- The four SLA thresholds (`DEFAULT_THRESHOLDS`, possibly overridden by a
policy pack); the code re-coerces them with `int()` / `float()` at each use. -/
structure SlaThresholds where
  min_quality_score : Rat
  max_stale_pct : Rat
  max_high_priority_gaps : Rat
  max_quality_score_drop : Rat
  deriving Repr, DecidableEq

/-- Embeds `DEFAULT_THRESHOLDS` from `evaluate_kpi_sla.py`. -/
def DEFAULT_THRESHOLDS : SlaThresholds :=
  { min_quality_score := 80
    max_stale_pct := 15
    max_high_priority_gaps := 8
    max_quality_score_drop := 5 }

/-- The `metrics` dict of `SlaReport`. -/
structure SlaMetrics where
  quality_score : Int
  stale_pct : Rat
  high_priority_gaps : Int
  deriving Repr, DecidableEq

/-- The `SlaReport` dataclass. -/
structure SlaReport where
  status : String
  summary : String
  breaches : List String
  trend_notes : List String
  metrics : SlaMetrics
  deriving Repr, DecidableEq

/-- Embeds `evaluate(current, previous, thresholds)`: four conditional appends to
`breaches`, a trend note when `previous` is given, and
`status = "breach" if breaches else "ok"`. -/
def evaluate (current : KpiMetrics) (previous : Option KpiMetrics)
    (t : SlaThresholds) : SlaReport :=
  let quality := pyTruncInt (current.quality_score.getD 0)
  let stale_pct := current.stale_pct.getD 0
  let high_gaps := pyTruncInt (current.gap_high.getD 0)
  let breaches1 : List String :=
    if quality < pyTruncInt t.min_quality_score then
      ["Quality score breach: " ++ toString quality ++ " < " ++
        toString (pyTruncInt t.min_quality_score) ++ "."]
    else []
  let breaches2 : List String :=
    if t.max_stale_pct < stale_pct then
      ["Stale docs breach: " ++ toString stale_pct ++ "% > " ++
        toString t.max_stale_pct ++ "%."]
    else []
  let breaches3 : List String :=
    if pyTruncInt t.max_high_priority_gaps < high_gaps then
      ["High-priority gap breach: " ++ toString high_gaps ++ " > " ++
        toString (pyTruncInt t.max_high_priority_gaps) ++ "."]
    else []
  let breaches4 : List String :=
    match previous with
    | none => []
    | some prev =>
      let previous_quality := pyTruncInt (prev.quality_score.getD (quality : Rat))
      if pyTruncInt t.max_quality_score_drop < previous_quality - quality then
        ["Quality trend breach: dropped by " ++ toString (previous_quality - quality) ++
          " points (max allowed " ++ toString (pyTruncInt t.max_quality_score_drop) ++ ")."]
      else []
  let trend_notes : List String :=
    match previous with
    | none => []
    | some prev =>
      let previous_quality := pyTruncInt (prev.quality_score.getD (quality : Rat))
      ["Quality score trend: previous " ++ toString previous_quality ++
        ", current " ++ toString quality ++ "."]
  let breaches := breaches1 ++ breaches2 ++ breaches3 ++ breaches4
  { status := if breaches.isEmpty then "ok" else "breach"
    summary := if breaches.isEmpty then "KPI SLA check passed." else "SLA thresholds breached."
    breaches := breaches
    trend_notes := trend_notes
    metrics := { quality_score := quality, stale_pct := stale_pct,
                 high_priority_gaps := high_gaps } }

/-- The KPI example from the spec: quality 70, stale 20 percent, 9 high gaps. -/
def kpiExample : KpiMetrics :=
  { quality_score := some 70, stale_pct := some 20, gap_high := some 9 }

/-! ## `AlgoliaAnalytics._parse_csv_row`

A `csv.DictReader` row maps header names to values; a value can be missing
(key absent) or `None` (short row), hence `List (String × Option String)`. -/

/-- Python whitespace for `str.strip()` / numeric parsing. -/
def isPyWs (c : Char) : Bool :=
  c == ' ' || c == '\t' || c == '\n' || c == '\r' || c == '\x0b' || c == '\x0c'

/-- Strip leading and trailing whitespace from a character list. -/
def trimWs (cs : List Char) : List Char :=
  ((cs.dropWhile isPyWs).reverse.dropWhile isPyWs).reverse

/-- ASCII decimal digit. -/
def isDigitChar (c : Char) : Bool :=
  48 ≤ c.toNat && c.toNat ≤ 57

/-- Value of a list of decimal digit characters. -/
def digitsToNat (cs : List Char) : Nat :=
  cs.foldl (fun acc c => 10 * acc + (c.toNat - 48)) 0

/-- Python `int(s)`: strip whitespace, optional sign, one or more digits
(digit-group underscores are not modelled); `none` is a `ValueError`. -/
def pyInt (s : String) : Option Int :=
  let core : List Char → Option Int := fun cs =>
    if cs.isEmpty then none
    else if cs.all isDigitChar then some (digitsToNat cs) else none
  match trimWs s.data with
  | '-' :: rest => (core rest).map Int.neg
  | '+' :: rest => core rest
  | rest => core rest

/-- Digit run to `Option Nat` (empty allowed, standing for a missing side of
the decimal point; the caller rules out the all-empty case). -/
def digitRun (cs : List Char) : Option Nat :=
  if cs.all isDigitChar then some (digitsToNat cs) else none

/-- Python `float(s)` on plain decimal literals: optional sign, digits with at
most one point (`"1"`, `"0.08"`, `".5"`, `"5."`).  Exponent, `inf`/`nan` and
underscore forms are not modelled; no claim feeds them.  The result is the
exact rational the literal denotes. -/
def pyFloat (s : String) : Option Rat :=
  let core : List Char → Option Rat := fun cs =>
    match cs.span (fun c => c != '.') with
    | (intPart, []) =>
      if intPart.isEmpty then none
      else (digitRun intPart).map (fun n => mkRat n 1)
    | (intPart, _ :: fracPart) =>
      if fracPart.any (fun c => c == '.') then none
      else if intPart.isEmpty && fracPart.isEmpty then none
      else
        match digitRun (intPart ++ fracPart) with
        | some mantissa => some (mkRat mantissa (10 ^ fracPart.length))
        | none => none
  match trimWs s.data with
  | '-' :: rest => (core rest).map Neg.neg
  | '+' :: rest => core rest
  | rest => core rest

/-- Embeds `row.get(k)` (no default): `none` when the header is absent. -/
def rowGet (row : List (String × Option String)) (k : String) :
    Option (Option String) :=
  (row.find? (fun kv => kv.1 == k)).map Prod.snd

/-- Embeds `row.get(k, default)`. -/
def rowGetD (row : List (String × Option String)) (k : String)
    (default : Option String) : Option String :=
  (rowGet row k).getD default

/-- Python truthiness of a CSV cell: `None` and `""` are falsy. -/
def truthyCell : Option String → Bool
  | none => false
  | some s => !s.data.isEmpty

/-- The `or`-chain
`row.get('Search') or row.get('query') or row.get('Query') or row.get('search') or ''`. -/
def csvQueryText (row : List (String × Option String)) : String :=
  match [rowGetD row "Search" none, rowGetD row "query" none,
         rowGetD row "Query" none, rowGetD row "search" none].find? truthyCell with
  | some (some s) => s
  | _ => ""

/-- Embeds `int(value or 0)` applied to a chained `.get` result: falsy cells give 0,
a truthy cell must parse as an integer (else `ValueError`). -/
def csvIntField (v : Option String) : Option Int :=
  match v with
  | none => some 0
  | some s => if s.data.isEmpty then some 0 else pyInt s

/-- Embeds `ctr_str.replace('%', '').strip()`. -/
def pyStripPct (s : String) : String :=
  ⟨trimWs (s.data.filter (fun c => c != '%'))⟩

/-- The CTR cell: `row.get('CTR', row.get('Click-through rate',
row.get('clickThroughRate', '0')))`. -/
def csvCtrCell (row : List (String × Option String)) : Option String :=
  rowGetD row "CTR" (rowGetD row "Click-through rate"
    (rowGetD row "clickThroughRate" (some "0")))

/-- The stored click-through rate: strip `%`, parse, divide by 100 when the
value exceeds 1; any `ValueError`/`TypeError` (unparseable text or a `None`
cell) yields 0. -/
def csvCtrValue (cell : Option String) : Rat :=
  match cell with
  | none => 0
  | some s =>
    match pyFloat (pyStripPct s) with
    | none => 0
    | some v => if 1 < v then v / 100 else v

/-- Embeds `AlgoliaAnalytics._parse_csv_row`: `Except.error ()` models the uncaught
`ValueError` that `int()` raises on a malformed count/results cell;
`Except.ok none` is the `return None` for an empty query. -/
def parse_csv_row (row : List (String × Option String)) :
    Except Unit (Option SearchQuery) :=
  let query_text := csvQueryText row
  if query_text.data.isEmpty then Except.ok none
  else
    match csvIntField (rowGetD row "Count" (rowGetD row "count"
            (rowGetD row "Searches" none))),
          csvIntField (rowGetD row "Results" (rowGetD row "nbHits"
            (rowGetD row "Hits" none))) with
    | some count, some results =>
      Except.ok (some (enrich_query
        { query := query_text
          count := count
          results_count := results
          click_through_rate := csvCtrValue (csvCtrCell row) }))
    | _, _ => Except.error ()

/-- A concrete row whose CTR cell is exactly `"1.0"`. -/
def csvRowOne : List (String × Option String) :=
  [("Search", some "webhook"), ("CTR", some "1.0")]

/-- The query `parse_csv_row` produces from `csvRowOne`. -/
def csvQueryOne : SearchQuery :=
  enrich_query
    { query := "webhook", count := 0, results_count := 0, click_through_rate := 1 }

/-! ## `scripts/gap_detection/community_collector.py` -/

/-- Embeds `CommunityTopic` dataclass. -/
structure CommunityTopic where
  title : String
  url : String
  source : String
  published_date : Option String := none
  category : String := "general"
  keywords : List String := []
  potential_doc_type : String := "how-to"
  frequency : Int := 1
  deriving Repr, DecidableEq

/-- The group key of `_group_similar_topics`:
`f"{topic.category}:{topic.keywords[0]}"` when the topic has keywords, the
bare category otherwise. -/
def groupKey (t : CommunityTopic) : String :=
  match t.keywords with
  | [] => t.category
  | kw :: _ => t.category ++ ":" ++ kw

/-- One iteration of the grouping loop (`groups[group_key].append(topic)`):
the dict is an association list keyed by first occurrence. -/
def groupStep (acc : List (String × List CommunityTopic)) (t : CommunityTopic) :
    List (String × List CommunityTopic) :=
  let k := groupKey t
  if acc.any (fun g => g.1 == k) then
    acc.map (fun g => if g.1 == k then (g.1, g.2 ++ [t]) else g)
  else
    acc ++ [(k, [t])]

/-- Embeds `CommunityCollector._group_similar_topics`. -/
def group_similar_topics (topics : List CommunityTopic) :
    List (String × List CommunityTopic) :=
  topics.foldl groupStep []

/-- Occurrences of `x` in `xs` (`collections.Counter` count). -/
def countEq (xs : List String) (x : String) : Nat :=
  xs.countP (fun y => y == x)

/-- Embeds `Counter(xs).most_common(n)`: keys in first-occurrence order, stably
sorted by descending count, truncated to `n`. -/
def mostCommon (xs : List String) (n : Nat) : List (String × Nat) :=
  ((xs.eraseDups.map (fun k => (k, countEq xs k))).mergeSort
    (fun a b => decide (b.2 ≤ a.2))).take n

/-- Embeds `doc_types.most_common(1)[0][0]` on the group's doc types (groups are
nonempty, so the fallback arm is unreachable). -/
def primaryDocType (ts : List CommunityTopic) : String :=
  match mostCommon (ts.map (fun t => t.potential_doc_type)) 1 with
  | (k, _) :: _ => k
  | [] => "how-to"

/-- One suggestion dict built by `_generate_doc_suggestions` for a group. -/
structure CommunitySuggestion where
  topic : String
  frequency : Int
  suggested_doc_type : String
  keywords : List String
  category : String
  sample_questions : List String
  priority : String
  deriving Repr, DecidableEq

/-- The suggestion built for group `(key, ts)`. -/
def mkSuggestion (key : String) (ts : List CommunityTopic) : CommunitySuggestion :=
  { topic := key
    frequency := (ts.length : Int)
    suggested_doc_type := primaryDocType ts
    keywords := (mostCommon (ts.flatMap (fun t => t.keywords)) 5).map Prod.fst
    category := (ts.head?.map (fun t => t.category)).getD "general"
    sample_questions := (ts.take 3).map (fun t => t.title)
    priority := if 5 ≤ ts.length then "high" else "medium" }

/-- The `suggestions` list of `_generate_doc_suggestions` before sorting:
one entry per group with at least two members, in dict order. -/
def communitySuggestionsRaw (topics : List CommunityTopic) : List CommunitySuggestion :=
  ((group_similar_topics topics).filter (fun g => 2 ≤ g.2.length)).map
    (fun g => mkSuggestion g.1 g.2)

/-- Embeds `CommunityCollector._generate_doc_suggestions` (its unused
`keyword_freq` argument is dropped): build, sort by descending frequency
(Python sort is stable, as is `mergeSort`), keep the top 20. -/
def generate_doc_suggestions (topics : List CommunityTopic) : List CommunitySuggestion :=
  ((communitySuggestionsRaw topics).mergeSort
    (fun a b => decide (b.frequency ≤ a.frequency))).take 20

/-- A concrete webhook topic for instantiating the community theorems. -/
def topicW1 : CommunityTopic :=
  { title := "Webhook retry fails", url := "u1", source := "rss",
    category := "webhook", keywords := ["retry", "fails"],
    potential_doc_type := "troubleshooting" }

/-- A second topic sharing `topicW1`'s group key `webhook:retry`. -/
def topicW2 : CommunityTopic :=
  { title := "How to retry a webhook", url := "u2", source := "rss",
    category := "webhook", keywords := ["retry", "webhook"],
    potential_doc_type := "how-to" }

/-! ## JSON round trip: `GapAggregator.save_to_json` /
`run_batch_generation` (`batch_generator.py`)

`save_to_json` serializes `asdict(gap)` for every gap into the `gaps` array;
`run_batch_generation` reloads the file and rebuilds each gap with
`DocumentationGap(**g)`.  File I/O and the text encoding of Python's `json`
module (which round-trips strings and ints exactly) are abstracted to a JSON
value tree. -/

/-- JSON values as produced by `json.dump` / consumed by `json.load`. -/
inductive Json where
  | str (s : String)
  | num (n : Int)
  | arr (xs : List Json)
  | obj (fields : List (String × Json))
  | bool (b : Bool)
  | null

/-- Embeds `asdict(gap)`: all 14 dataclass fields, in declaration order. -/
def gapToJson (g : DocumentationGap) : Json :=
  Json.obj
    [("id", Json.str g.id), ("title", Json.str g.title),
     ("description", Json.str g.description), ("source", Json.str g.source),
     ("category", Json.str g.category),
     ("suggested_doc_type", Json.str g.suggested_doc_type),
     ("priority", Json.str g.priority), ("frequency", Json.num g.frequency),
     ("keywords", Json.arr (g.keywords.map Json.str)),
     ("related_files", Json.arr (g.related_files.map Json.str)),
     ("sample_queries", Json.arr (g.sample_queries.map Json.str)),
     ("action_required", Json.str g.action_required),
     ("status", Json.str g.status), ("created_at", Json.str g.created_at)]

/-- Dict lookup on a JSON object's fields. -/
def jLookup (fields : List (String × Json)) (k : String) : Option Json :=
  (fields.find? (fun f => f.1 == k)).map Prod.snd

/-- Expect a JSON string. -/
def jStr : Json → Option String
  | Json.str s => some s
  | _ => none

/-- Expect a JSON integer. -/
def jInt : Json → Option Int
  | Json.num n => some n
  | _ => none

/-- Expect a JSON array of strings. -/
def jStrList : Json → Option (List String)
  | Json.arr xs => xs.mapM jStr
  | _ => none

/-- Embeds `DocumentationGap(**g)`: rebuild a gap from its serialized dict (each
keyword argument must be present with the serializer's type). -/
def gapFromJson (j : Json) : Option DocumentationGap :=
  match j with
  | Json.obj fields => do
    let gid ← jLookup fields "id" >>= jStr
    let gtitle ← jLookup fields "title" >>= jStr
    let gdescription ← jLookup fields "description" >>= jStr
    let gsource ← jLookup fields "source" >>= jStr
    let gcategory ← jLookup fields "category" >>= jStr
    let gdoctype ← jLookup fields "suggested_doc_type" >>= jStr
    let gpriority ← jLookup fields "priority" >>= jStr
    let gfrequency ← jLookup fields "frequency" >>= jInt
    let gkeywords ← jLookup fields "keywords" >>= jStrList
    let grelated ← jLookup fields "related_files" >>= jStrList
    let gsamples ← jLookup fields "sample_queries" >>= jStrList
    let gaction ← jLookup fields "action_required" >>= jStr
    let gstatus ← jLookup fields "status" >>= jStr
    let gcreated ← jLookup fields "created_at" >>= jStr
    some { id := gid, title := gtitle, description := gdescription,
           source := gsource, category := gcategory,
           suggested_doc_type := gdoctype, priority := gpriority,
           frequency := gfrequency, keywords := gkeywords,
           related_files := grelated, sample_queries := gsamples,
           action_required := gaction, status := gstatus,
           created_at := gcreated }
  | _ => none

/-- Embeds `AggregatedReport` dataclass; `summary` is an arbitrary JSON dict that
both sides pass through untouched. -/
structure AggregatedReport where
  gaps : List DocumentationGap := []
  summary : Json := Json.obj []
  sources_analyzed : List String := []
  generated_at : String := ""

/-- The `data` dict written by `GapAggregator.save_to_json`. -/
def reportToJson (r : AggregatedReport) : Json :=
  Json.obj
    [("summary", r.summary),
     ("sources_analyzed", Json.arr (r.sources_analyzed.map Json.str)),
     ("generated_at", Json.str r.generated_at),
     ("gaps", Json.arr (r.gaps.map gapToJson))]

/-- The reload in `run_batch_generation`:
`AggregatedReport(gaps=[DocumentationGap(**g) for g in data['gaps']], ...)`. -/
def reportFromJson (j : Json) : Option AggregatedReport :=
  match j with
  | Json.obj fields => do
    let gapsJson ← jLookup fields "gaps"
    let gaps ← match gapsJson with
      | Json.arr xs => xs.mapM gapFromJson
      | _ => none
    let summary ← jLookup fields "summary"
    let sources ← jLookup fields "sources_analyzed" >>= jStrList
    let genAt ← jLookup fields "generated_at" >>= jStr
    some { gaps := gaps, summary := summary, sources_analyzed := sources,
           generated_at := genAt }
  | _ => none

/-- A concrete report for instantiating the round-trip theorem. -/
def reportW : AggregatedReport :=
  { gaps := [gapMed], summary := Json.obj [("total_gaps", Json.num 1)],
    sources_analyzed := ["community"], generated_at := "2024-01-01T00:00:00" }

/-! ## `GapAggregator.aggregate_all` -/

/-- ASCII digit character for a digit value. -/
def digitChar (d : Nat) : Char := Char.ofNat (48 + d)

/-- Numeric value of an ASCII digit character. -/
def charVal (c : Char) : Nat := c.toNat - 48

/-- The decimal numeral of `n` (most significant digit first), as Python
prints a nonnegative `int`. -/
def natDecimalChars (n : Nat) : List Char :=
  if n = 0 then [digitChar 0] else (Nat.digits 10 n).reverse.map digitChar

/-- Python `f"{n:04d}"` for `n ≥ 0`: left-pad the numeral with zeros to
width 4. -/
def pad4Chars (n : Nat) : List Char :=
  List.replicate (4 - (natDecimalChars n).length) (digitChar 0) ++ natDecimalChars n

/-- A gap id `f"CODE-{gap_id:04d}"` (resp. `COMM-`, `SRCH-`): the 5-character
tag followed by the padded counter. -/
def mkGapId (tag : String) (n : Nat) : String :=
  ⟨tag.data ++ pad4Chars n⟩

/-- Read a decimal numeral back (tolerates leading zeros). -/
def decodeDecimal (cs : List Char) : Nat :=
  Nat.ofDigits 10 ((cs.map charVal).reverse)

/-- The counter encoded in a gap id (the part after the 5-character tag). -/
def gapIdNum (s : String) : Nat :=
  decodeDecimal (s.data.drop 5)

/-- Embeds `CodeChange` dataclass from `code_analyzer.py`. -/
structure CodeChange where
  file_path : String
  change_type : String
  category : String
  description : String
  lines_changed : Int
  commit_hash : Option String := none
  commit_message : Option String := none
  commit_date : Option String := none
  priority : String := "medium"
  doc_suggestion : String := ""
  context : Option String := none
  old_value : Option String := none
  new_value : Option String := none

/-- One suggestion dict from `AlgoliaAnalytics._generate_suggestions` (the
`ctr` key appears only on low-CTR suggestions and is unused downstream). -/
structure SearchSuggestion where
  query : String
  reason : String
  search_count : Int
  suggested_doc_type : String
  category : String
  priority : String
  action : String
  ctr : Option Rat := none

/-- Embeds `AnalysisResult` from `code_analyzer.py`. -/
structure CodeResult where
  changes : List CodeChange := []
  summary : Json := Json.obj []
  commit_analysis : List Json := []
  analyzed_at : String := ""

/-- Embeds `CollectionResult` from `community_collector.py`. -/
structure CommunityResult where
  topics : List CommunityTopic := []
  keyword_frequency : List (String × Nat) := []
  suggested_docs : List CommunitySuggestion := []
  collected_at : String := ""

/-- Embeds `AlgoliaResult` from `algolia_parser.py`. -/
structure AlgoliaResult where
  no_results_queries : List SearchQuery := []
  low_ctr_queries : List SearchQuery := []
  popular_queries : List SearchQuery := []
  suggested_docs : List SearchSuggestion := []
  analyzed_at : String := ""

/-- Python `str.title()` on ASCII text: a letter is uppercased after a
non-letter and lowercased after a letter. -/
def titleChars : List Char → Bool → List Char
  | [], _ => []
  | c :: cs, prevAlpha =>
    (if c.isAlpha then (if prevAlpha then c.toLower else c.toUpper) else c) ::
      titleChars cs c.isAlpha

/-- Python `str.title()`. -/
def pyTitle (s : String) : String :=
  ⟨titleChars s.data false⟩

/-- Embeds `category.replace("_", " ")`. -/
def replaceUnderscore (s : String) : String :=
  ⟨s.data.map (fun c => if c = '_' then ' ' else c)⟩

/-- Embeds `GapAggregator._truncate`. -/
def truncateText (text : String) (maxLen : Nat) : String :=
  if text.data.length ≤ maxLen then text
  else ⟨text.data.take (maxLen - 3) ++ ['.', '.', '.']⟩

/-- Embeds `CODE_DOC_TYPE` mapping of `GapAggregator._map_code_to_doc_type`. -/
def CODE_DOC_TYPE_MAPPING : List (String × String) :=
  [("api_endpoint", "reference"), ("env_var", "reference"),
   ("config_option", "reference"), ("cli_command", "reference"),
   ("public_function", "reference"), ("breaking_change", "how-to"),
   ("webhook", "how-to"), ("general", "how-to")]

/-- Embeds `GapAggregator._map_code_to_doc_type` (`mapping.get(category, 'how-to')`). -/
def map_code_to_doc_type (category : String) : String :=
  ((CODE_DOC_TYPE_MAPPING.find? (fun kv => kv.1 == category)).map Prod.snd).getD "how-to"

/-- The gap built for the `n`-th aggregated item when it is a code change. -/
def codeChangeGap (n : Nat) (c : CodeChange) : DocumentationGap :=
  { id := mkGapId "CODE-" n
    title := pyTitle (replaceUnderscore c.category) ++ ": " ++ truncateText c.description 50
    description := c.doc_suggestion
    source := "code"
    category := c.category
    suggested_doc_type := map_code_to_doc_type c.category
    priority := c.priority
    related_files := [c.file_path]
    action_required := c.doc_suggestion }

/-- The gap built for the `n`-th aggregated item when it is a community
suggestion. -/
def commGap (n : Nat) (s : CommunitySuggestion) : DocumentationGap :=
  { id := mkGapId "COMM-" n
    title := pyTitle s.category ++ ": " ++ s.topic
    description := "Frequently asked topic (" ++ toString s.frequency ++ " questions)"
    source := "community"
    category := s.category
    suggested_doc_type := s.suggested_doc_type
    priority := s.priority
    frequency := s.frequency
    keywords := s.keywords
    sample_queries := s.sample_questions
    action_required := "Create " ++ s.suggested_doc_type ++ " covering: " ++
      String.intercalate ", " (s.keywords.take 3) }

/-- The gap built for the `n`-th aggregated item when it is a search
suggestion. -/
def searchGap (n : Nat) (s : SearchSuggestion) : DocumentationGap :=
  { id := mkGapId "SRCH-" n
    title := "Search: \"" ++ s.query ++ "\""
    description := pyTitle (replaceUnderscore s.reason) ++ " - " ++
      toString s.search_count ++ " searches"
    source := "search"
    category := s.category
    suggested_doc_type := s.suggested_doc_type
    priority := s.priority
    frequency := s.search_count
    sample_queries := [s.query]
    action_required := s.action }

/-- One iteration of an aggregation loop: `gap_id += 1` then
`report.gaps.append(gap)`, with `mk` building the gap from the new counter. -/
def gapLoop {α : Type} (mk : Nat → α → DocumentationGap)
    (st : Nat × List DocumentationGap) (x : α) : Nat × List DocumentationGap :=
  (st.1 + 1, st.2 ++ [mk (st.1 + 1) x])

/-- Embeds `priority_order.get(g.priority, 2)` of the final sort. -/
def priorityRank (p : String) : Nat :=
  if p = "high" then 0 else if p = "medium" then 1 else 2

/-- The sort key comparison `(priority_order, -frequency)` (ascending,
lexicographic); Python's stable `list.sort` is modelled by the stable
`mergeSort`. -/
def gapSortLE (a b : DocumentationGap) : Bool :=
  decide (priorityRank a.priority < priorityRank b.priority ∨
    (priorityRank a.priority = priorityRank b.priority ∧ -a.frequency ≤ -b.frequency))

/-- One `by_*` counting dict of `_generate_summary`, in first-occurrence
order. -/
def countBy (f : DocumentationGap → String) (gaps : List DocumentationGap) : Json :=
  Json.obj (((gaps.map f).eraseDups).map
    (fun k => (k, Json.num (gaps.countP (fun g => f g == k) : Nat))))

/-- Embeds `GapAggregator._generate_summary`. -/
def generateSummary (gaps : List DocumentationGap) : Json :=
  Json.obj
    [("total_gaps", Json.num (gaps.length : Nat)),
     ("high_priority", Json.num (gaps.countP (fun g => g.priority == "high") : Nat)),
     ("medium_priority", Json.num (gaps.countP (fun g => g.priority == "medium") : Nat)),
     ("low_priority", Json.num (gaps.countP (fun g => g.priority == "low") : Nat)),
     ("by_source", countBy (fun g => g.source) gaps),
     ("by_doc_type", countBy (fun g => g.suggested_doc_type) gaps),
     ("by_category", countBy (fun g => g.category) gaps)]

/-- Embeds `GapAggregator.aggregate_all`: one counter threads through the three
source loops (an absent source contributes an empty list, exactly as the
Python `if source_result:` guard skips its loop), then deduplication, then
the priority/frequency sort, then the summary.  `generated_at` is
`datetime.now()` in Python and is left as the empty timestamp here. -/
def aggregate_all (codeRes : Option CodeResult) (commRes : Option CommunityResult)
    (algRes : Option AlgoliaResult) : AggregatedReport :=
  let cs := (codeRes.map CodeResult.changes).getD []
  let ms := (commRes.map CommunityResult.suggested_docs).getD []
  let ss := (algRes.map AlgoliaResult.suggested_docs).getD []
  let st1 := cs.foldl (gapLoop codeChangeGap) (0, [])
  let st2 := ms.foldl (gapLoop commGap) st1
  let st3 := ss.foldl (gapLoop searchGap) st2
  let finalGaps := (deduplicate_gaps st3.2).mergeSort gapSortLE
  { gaps := finalGaps
    summary := generateSummary finalGaps
    sources_analyzed :=
      (if codeRes.isSome then ["code_changes"] else []) ++
      (if commRes.isSome then ["community"] else []) ++
      (if algRes.isSome then ["search_analytics"] else [])
    generated_at := "" }

/-- The full gap list built by the three aggregation loops, in closed form:
code gaps numbered from 1, community gaps continuing the same counter,
search gaps continuing it again. -/
def preGaps (cs : List CodeChange) (ms : List CommunitySuggestion)
    (ss : List SearchSuggestion) : List DocumentationGap :=
  (List.enumFrom 1 cs).map (fun p => codeChangeGap p.1 p.2) ++
  (List.enumFrom (cs.length + 1) ms).map (fun p => commGap p.1 p.2) ++
  (List.enumFrom (cs.length + ms.length + 1) ss).map (fun p => searchGap p.1 p.2)

/-- A concrete code-analysis result with one change, for instantiating the
aggregation theorem. -/
def codeResW : CodeResult :=
  { changes := [{ file_path := "src/app/routes/orders.py", change_type := "added",
                  category := "api_endpoint", description := "new endpoint /orders",
                  lines_changed := 12, priority := "high",
                  doc_suggestion := "Document the /orders endpoint" }] }

/-! ## Theorems -/

theorem dedupKey_mergeGapInto (g gap : DocumentationGap) :
    dedupKey (mergeGapInto g gap) = dedupKey g := rfl

/-- Claim C1: merging two `DocumentationGap`s that share the
`category:suggested_doc_type` key yields exactly one gap for that key, whose
frequency is the sum of the inputs' frequencies and whose priority is `"high"`
whenever either input's priority was `"high"`. -/
theorem dedup_pair_merges (g1 g2 : DocumentationGap)
    (hkey : dedupKey g1 = dedupKey g2) :
    deduplicate_gaps [g1, g2] = [mergeGapInto g1 g2] ∧
    (mergeGapInto g1 g2).frequency = g1.frequency + g2.frequency ∧
    ((g1.priority = "high" ∨ g2.priority = "high") →
      (mergeGapInto g1 g2).priority = "high") := by
  refine ⟨?_, rfl, ?_⟩
  · simp only [deduplicate_gaps, List.foldl, dedupStep, List.any_nil,
      Bool.false_eq_true, if_false, List.nil_append, List.any_cons,
      List.any_nil, Bool.or_false, hkey, beq_self_eq_true, if_true,
      List.map_cons, List.map_nil]
  · intro h
    simp only [mergeGapInto]
    rcases h with h1 | h2
    · by_cases hg2 : g2.priority = "high" <;> simp [hg2, h1]
    · simp [h2]

theorem dedup_pair_merges_witness :
    deduplicate_gaps [gapW1, gapW2] = [mergeGapInto gapW1 gapW2] ∧
    (mergeGapInto gapW1 gapW2).frequency = gapW1.frequency + gapW2.frequency ∧
    ((gapW1.priority = "high" ∨ gapW2.priority = "high") →
      (mergeGapInto gapW1 gapW2).priority = "high") :=
  dedup_pair_merges gapW1 gapW2 rfl

/-- Claim C2, counterexample: the final priority of a merged gap is NOT
order-independent.  Permuting `[gapMed, gapLow]` to `[gapLow, gapMed]` changes
the merged gap's priority from `"medium"` to `"low"`: when no member of a key
group has priority `"high"`, the merged priority is the priority of whichever
gap came first. -/
theorem dedup_priority_not_perm_invariant :
    [gapMed, gapLow].Perm [gapLow, gapMed] ∧
    dedupKey gapMed = dedupKey gapLow ∧
    (deduplicate_gaps [gapMed, gapLow]).map DocumentationGap.priority = ["medium"] ∧
    (deduplicate_gaps [gapLow, gapMed]).map DocumentationGap.priority = ["low"] :=
  ⟨List.Perm.swap gapLow gapMed [], rfl, rfl, rfl⟩

theorem hasHighGap_iff (l : List DocumentationGap) (k : String) :
    hasHighGap l k = true ↔ ∃ g ∈ l, dedupKey g = k ∧ g.priority = "high" := by
  simp [hasHighGap, List.any_eq_true]

theorem hasHighGap_dedupStep (acc : List DocumentationGap)
    (gap : DocumentationGap) (k : String) :
    hasHighGap (dedupStep acc gap) k =
      (hasHighGap acc k || (dedupKey gap == k && gap.priority == "high")) := by
  rw [Bool.eq_iff_iff, hasHighGap_iff, Bool.or_eq_true, hasHighGap_iff,
    Bool.and_eq_true, beq_iff_eq, beq_iff_eq]
  unfold dedupStep
  by_cases hc : acc.any (fun g => dedupKey g == dedupKey gap) = true
  · rw [if_pos hc]
    rw [List.any_eq_true] at hc
    obtain ⟨g0, hg0, hg0key⟩ := hc
    rw [beq_iff_eq] at hg0key
    constructor
    · rintro ⟨g, hg, hkey, hpri⟩
      rw [List.mem_map] at hg
      obtain ⟨g', hg', rfl⟩ := hg
      by_cases hk : dedupKey g' = dedupKey gap
      · simp only [hk, beq_self_eq_true, if_true] at hkey hpri ⊢
        rw [dedupKey_mergeGapInto] at hkey
        simp only [mergeGapInto] at hpri
        by_cases hgp : gap.priority = "high"
        · exact Or.inr ⟨hk.symm.trans hkey, hgp⟩
        · rw [if_neg hgp] at hpri
          exact Or.inl ⟨g', hg', hkey, hpri⟩
      · simp only [beq_eq_false_iff_ne.mpr hk, if_false] at hkey hpri
        exact Or.inl ⟨g', hg', hkey, hpri⟩
    · rintro (⟨g, hg, hkey, hpri⟩ | ⟨hkeq, hpri⟩)
      · by_cases hk : dedupKey g = dedupKey gap
        · refine ⟨mergeGapInto g gap, List.mem_map.mpr ⟨g, hg, ?_⟩, ?_, ?_⟩
          · simp [hk]
          · rw [dedupKey_mergeGapInto]; exact hkey
          · simp only [mergeGapInto]
            by_cases hgp : gap.priority = "high" <;> simp [hgp, hpri]
        · refine ⟨g, List.mem_map.mpr ⟨g, hg, ?_⟩, hkey, hpri⟩
          simp [beq_eq_false_iff_ne.mpr hk]
      · refine ⟨mergeGapInto g0 gap, List.mem_map.mpr ⟨g0, hg0, ?_⟩, ?_, ?_⟩
        · simp [hg0key]
        · rw [dedupKey_mergeGapInto, hg0key, hkeq]
        · simp [mergeGapInto, hpri]
  · rw [if_neg hc]
    simp only [List.mem_append, List.mem_singleton]
    constructor
    · rintro ⟨g, hg | rfl, hkey, hpri⟩
      · exact Or.inl ⟨g, hg, hkey, hpri⟩
      · exact Or.inr ⟨hkey, hpri⟩
    · rintro (⟨g, hg, hkey, hpri⟩ | ⟨hkeq, hpri⟩)
      · exact ⟨g, Or.inl hg, hkey, hpri⟩
      · exact ⟨gap, Or.inr rfl, hkeq, hpri⟩

theorem hasHighGap_foldl (l acc : List DocumentationGap) (k : String) :
    hasHighGap (l.foldl dedupStep acc) k =
      (hasHighGap acc k || l.any (fun g => dedupKey g == k && g.priority == "high")) := by
  induction l generalizing acc with
  | nil => simp [hasHighGap]
  | cons g l ih =>
    rw [List.foldl_cons, ih, hasHighGap_dedupStep, List.any_cons, Bool.or_assoc]

theorem hasHighGap_deduplicate (l : List DocumentationGap) (k : String) :
    hasHighGap (deduplicate_gaps l) k =
      l.any (fun g => dedupKey g == k && g.priority == "high") := by
  rw [deduplicate_gaps, hasHighGap_foldl]
  simp [hasHighGap]

/-- Claim C2 (amended): the exact merged priority is order-dependent when a key
group mixes non-high priorities, but whether the merged gap for a key comes
out `"high"` is order-independent: for any permutation of the input,
`_deduplicate_gaps` produces a gap with key `k` and priority `"high"` in one
order iff it does in the other. -/
theorem dedup_high_perm_invariant (l1 l2 : List DocumentationGap)
    (hperm : l1.Perm l2) (k : String) :
    hasHighGap (deduplicate_gaps l1) k = hasHighGap (deduplicate_gaps l2) k := by
  rw [hasHighGap_deduplicate, hasHighGap_deduplicate, Bool.eq_iff_iff,
    List.any_eq_true, List.any_eq_true]
  constructor
  · rintro ⟨g, hg, hp⟩
    exact ⟨g, hperm.mem_iff.mp hg, hp⟩
  · rintro ⟨g, hg, hp⟩
    exact ⟨g, hperm.mem_iff.mpr hg, hp⟩

theorem dedup_high_perm_invariant_witness :
    hasHighGap (deduplicate_gaps [gapMed, gapLow]) (dedupKey gapMed) =
      hasHighGap (deduplicate_gaps [gapLow, gapMed]) (dedupKey gapMed) :=
  dedup_high_perm_invariant [gapMed, gapLow] [gapLow, gapMed]
    (List.Perm.swap gapLow gapMed []) (dedupKey gapMed)

/-- Claim C3: `evaluate_contract(files).blocked` holds iff some path matches an
interface pattern and no path matches a doc pattern; in particular
`["api/openapi.yaml", "src/app/routes/orders.py"]` is blocked and appending
`"docs/reference/orders.md"` unblocks it. -/
theorem evaluate_contract_blocked_iff (files : List String) :
    ((evaluate_contract files).blocked = true ↔
      (∃ p ∈ files, interfaceMatch p = true) ∧ ∀ p ∈ files, docMatch p = false) ∧
    (evaluate_contract ["api/openapi.yaml", "src/app/routes/orders.py"]).blocked = true ∧
    (evaluate_contract
      ["api/openapi.yaml", "src/app/routes/orders.py", "docs/reference/orders.md"]).blocked
      = false := by
  have hfe : ∀ (p : String → Bool) (l : List String),
      (l.filter p).isEmpty = true ↔ ∀ x ∈ l, p x = false := by
    intro p l
    rw [List.isEmpty_iff, List.filter_eq_nil_iff]
    simp
  refine ⟨?_, by decide, by decide⟩
  simp only [evaluate_contract, Bool.and_eq_true, Bool.not_eq_true']
  rw [Bool.eq_false_iff, Ne, hfe, hfe]
  push_neg
  simp only [Bool.not_eq_false]

theorem evaluate_contract_blocked_iff_witness :
    (evaluate_contract ["api/openapi.yaml", "src/app/routes/orders.py"]).blocked = true :=
  (evaluate_contract_blocked_iff []).2.1

theorem mkRat_one_ten : mkRat 1 10 = (1 : Rat)/10 := by
  norm_num [mkRat]

/-- Claim C4: the priority assigned by `_enrich_query`, case by case: zero
results with at least 10 searches is high; otherwise zero results with at
least 5 searches is medium; otherwise a click-through rate below 1/10 with at
least 20 searches is high; everything else is low. -/
theorem enrich_query_priority_policy (q : SearchQuery) :
    (q.results_count = 0 → 10 ≤ q.count → (enrich_query q).priority = "high") ∧
    (q.results_count = 0 → 5 ≤ q.count → q.count < 10 →
      (enrich_query q).priority = "medium") ∧
    (q.results_count ≠ 0 → q.click_through_rate < 1/10 → 20 ≤ q.count →
      (enrich_query q).priority = "high") ∧
    (q.results_count ≠ 0 → ¬(q.click_through_rate < 1/10 ∧ 20 ≤ q.count) →
      (enrich_query q).priority = "low") ∧
    (q.results_count = 0 → q.count < 5 → (enrich_query q).priority = "low") := by
  refine ⟨?_, ?_, ?_, ?_, ?_⟩ <;>
    intro h1 h2 <;>
    simp only [enrich_query, algoliaPriority, mkRat_one_ten]
  · rw [if_pos ⟨h1, h2⟩]
  · intro h3
    rw [if_neg (by omega), if_pos ⟨h1, h2⟩]
  · intro h3
    rw [if_neg (by tauto), if_neg (by tauto), if_pos ⟨h2, h3⟩]
  · rw [if_neg (by tauto), if_neg (by tauto), if_neg h2]
  · rw [if_neg (by omega), if_neg (by omega), if_neg (by omega)]

theorem enrich_query_priority_policy_witness :
    (enrich_query
      { query := "oauth2 setup", count := 32, results_count := 0,
        click_through_rate := 0 }).priority = "high" :=
  (enrich_query_priority_policy
    { query := "oauth2 setup", count := 32, results_count := 0,
      click_through_rate := 0 }).1 rfl (by decide)

/-- A last-match `foldl` over a table equals the last element of the matching
sub-table (or the initial value when nothing matches). -/
theorem foldl_choice_eq_getLastD {α β : Type} (p : α → Bool) (f : α → β)
    (l : List α) (init : β) :
    l.foldl (fun cur a => if p a then f a else cur) init =
      ((l.filter p).map f).getLastD init := by
  induction l generalizing init with
  | nil => rfl
  | cons a l ih =>
    by_cases hp : p a = true
    · simp only [List.foldl_cons, hp, if_true, List.filter_cons, List.map_cons,
        List.getLastD_cons, ih]
    · simp only [Bool.not_eq_true] at hp
      simp only [List.foldl_cons, hp, Bool.false_eq_true, if_false, List.filter_cons, ih]

/-- Claim C10: `_enrich_query` assigns the LAST matching category in the
iteration order of `CATEGORY_KEYWORDS` (later categories overwrite earlier
matches because the `break` only exits the inner keyword loop); a query
containing both `webhook` and `docker` is categorized `deployment`, while the
community collector's first-match rule gives `webhook` for the same text. -/
theorem enrich_query_category_last_match :
    (∀ q : SearchQuery,
      (enrich_query q).category =
        ((ALGOLIA_CATEGORY_KEYWORDS.filter
            (fun ck => ck.2.any (fun kw => strContainsSub (pyLower q.query) kw))).map
          Prod.fst).getLastD q.category) ∧
    (enrich_query
      { query := "webhook docker", count := 1, results_count := 1,
        click_through_rate := 1 }).category = "deployment" ∧
    categorize_topic "webhook docker" = "webhook" := by
  refine ⟨?_, by decide, by decide⟩
  intro q
  simp only [enrich_query, algoliaCategory]
  exact foldl_choice_eq_getLastD _ _ _ _

/-- Claim C9: each of the four threshold checks appends exactly one breach entry
when violated, so the breach list length equals the number of violated
conditions; and on the example metrics with the default thresholds the report
has at least 3 breaches and status `"breach"`. -/
theorem evaluate_breach_count :
    (∀ (current : KpiMetrics) (previous : Option KpiMetrics) (t : SlaThresholds),
      (evaluate current previous t).breaches.length =
        (if pyTruncInt (current.quality_score.getD 0) < pyTruncInt t.min_quality_score
          then 1 else 0) +
        (if t.max_stale_pct < current.stale_pct.getD 0 then 1 else 0) +
        (if pyTruncInt t.max_high_priority_gaps < pyTruncInt (current.gap_high.getD 0)
          then 1 else 0) +
        (match previous with
          | none => 0
          | some prev =>
            if pyTruncInt t.max_quality_score_drop <
                pyTruncInt (prev.quality_score.getD
                  ((pyTruncInt (current.quality_score.getD 0) : Int) : Rat)) -
                  pyTruncInt (current.quality_score.getD 0)
            then 1 else 0)) ∧
    3 ≤ (evaluate kpiExample none DEFAULT_THRESHOLDS).breaches.length ∧
    (evaluate kpiExample none DEFAULT_THRESHOLDS).status = "breach" := by
  refine ⟨?_, by decide, by decide⟩
  intro current previous t
  cases previous with
  | none =>
    simp only [evaluate, List.length_append]
    split_ifs <;> simp
  | some prev =>
    simp only [evaluate, List.length_append]
    split_ifs <;> simp

/-- Claim C8: for every successfully parsed CSV row, the stored
`click_through_rate` is the parsed CTR divided by 100 exactly when that value
is strictly greater than 1 and unchanged otherwise; the `%` suffix is
stripped before parsing and an unparseable CTR becomes 0.  Concrete
instances: a CTR cell of `"1.0"` stays 1, `"85%"` becomes 17/20, `"abc"`
becomes 0. -/
theorem parse_csv_row_ctr (row : List (String × Option String))
    (sq : SearchQuery) (h : parse_csv_row row = Except.ok (some sq)) :
    sq.click_through_rate =
      (match (csvCtrCell row).map pyStripPct with
       | none => 0
       | some stripped =>
         match pyFloat stripped with
         | none => 0
         | some v => if 1 < v then v / 100 else v) := by
  unfold parse_csv_row at h
  split at h
  · by_cases hq : (csvQueryText row).data.isEmpty = true
    · simp [hq] at h
    · simp only [Bool.not_eq_true] at hq
      simp only [hq, Bool.false_eq_true, if_false, Except.ok.injEq,
        Option.some.injEq] at h
      subst h
      show csvCtrValue (csvCtrCell row) = _
      unfold csvCtrValue
      cases csvCtrCell row with
      | none => rfl
      | some s => rfl
  · by_cases hq : (csvQueryText row).data.isEmpty = true
    · simp [hq] at h
    · simp only [Bool.not_eq_true] at hq
      simp [hq] at h

theorem parse_csv_row_ctr_witness :
    parse_csv_row csvRowOne = Except.ok (some csvQueryOne) ∧
    csvQueryOne.click_through_rate =
      (match (csvCtrCell csvRowOne).map pyStripPct with
       | none => 0
       | some stripped =>
         match pyFloat stripped with
         | none => 0
         | some v => if 1 < v then v / 100 else v) :=
  ⟨rfl, parse_csv_row_ctr csvRowOne csvQueryOne rfl⟩

/-- The remaining concrete instances of **C8**: a percent-suffixed CTR is
divided by 100 and an unparseable CTR becomes 0 (stated on `csvCtrValue`,
the stored-CTR function of `_parse_csv_row`). -/
theorem csv_ctr_concrete :
    csvCtrValue (some "1.0") = 1 ∧
    csvCtrValue (some "85%") = 17/20 ∧
    csvCtrValue (some "abc") = 0 ∧
    csvCtrValue none = 0 := by
  have h85 : pyFloat (pyStripPct "85%") = some (mkRat 85 1) := by decide
  have h85e : mkRat 85 1 = (85 : Rat) := by decide
  refine ⟨by decide, ?_, by decide, rfl⟩
  show (match pyFloat (pyStripPct "85%") with
        | none => (0 : Rat)
        | some v => if 1 < v then v / 100 else v) = (17/20 : Rat)
  rw [h85, h85e]
  show (if (1 : Rat) < 85 then (85 : Rat) / 100 else 85) = (17/20 : Rat)
  norm_num

theorem groupStep_keys (acc : List (String × List CommunityTopic))
    (t : CommunityTopic)
    (hin : acc.any (fun g => g.1 == groupKey t) = true) :
    (groupStep acc t).map Prod.fst = acc.map Prod.fst := by
  simp only [groupStep, hin, if_true, List.map_map]
  apply List.map_congr_left
  intro g _
  by_cases hk : g.1 = groupKey t <;> simp [hk]

theorem group_keys_nodup_aux (topics : List CommunityTopic)
    (acc : List (String × List CommunityTopic))
    (hacc : (acc.map Prod.fst).Nodup) :
    ((topics.foldl groupStep acc).map Prod.fst).Nodup := by
  induction topics generalizing acc with
  | nil => exact hacc
  | cons t l ih =>
    rw [List.foldl_cons]
    apply ih
    by_cases hin : acc.any (fun g => g.1 == groupKey t) = true
    · rw [groupStep_keys acc t hin]; exact hacc
    · have hnotin : groupKey t ∉ acc.map Prod.fst := by
        intro hmem
        rcases List.mem_map.mp hmem with ⟨g, hg, hfst⟩
        rw [List.any_eq_true] at hin
        exact hin ⟨g, hg, by simp [hfst]⟩
      simp only [groupStep, hin, if_false, Bool.false_eq_true, List.map_append,
        List.map_cons, List.map_nil]
      rw [List.nodup_append]
      exact ⟨hacc, List.nodup_singleton _, by
        intro a ha hb
        simp only [List.mem_singleton] at hb
        exact hnotin (hb ▸ ha)⟩

/-- The keys of the grouping dict are pairwise distinct. -/
theorem group_keys_nodup (topics : List CommunityTopic) :
    ((group_similar_topics topics).map Prod.fst).Nodup :=
  group_keys_nodup_aux topics [] (by simp)

theorem find?_cons_eq {α : Type} (p : α → Bool) (a : α) (l : List α) :
    (a :: l).find? p = if p a then some a else l.find? p := by
  by_cases h : p a = true
  · rw [List.find?_cons_of_pos _ h, if_pos h]
  · rw [List.find?_cons_of_neg _ (by simpa using h), if_neg (by simpa using h)]

theorem find?_map_keyPreserving {β : Type}
    (f : (String × β) → (String × β)) (hf : ∀ x, (f x).1 = x.1)
    (l : List (String × β)) (k : String) :
    (l.map f).find? (fun g => g.1 == k) = (l.find? (fun g => g.1 == k)).map f := by
  induction l with
  | nil => rfl
  | cons a l ih =>
    rw [List.map_cons, find?_cons_eq, find?_cons_eq]
    by_cases hk : (a.1 == k) = true
    · rw [if_pos (show ((f a).1 == k) = true by rw [hf]; exact hk), if_pos hk,
        Option.map_some']
    · rw [if_neg (show ¬((f a).1 == k) = true by rw [hf]; exact hk),
        if_neg hk, ih]

theorem group_find_in (topics : List CommunityTopic)
    (acc : List (String × List CommunityTopic)) (k : String)
    (ts0 : List CommunityTopic)
    (hfind : acc.find? (fun g => g.1 == k) = some (k, ts0)) :
    (topics.foldl groupStep acc).find? (fun g => g.1 == k) =
      some (k, ts0 ++ topics.filter (fun t => groupKey t == k)) := by
  induction topics generalizing acc ts0 with
  | nil => simpa using hfind
  | cons t l ih =>
    rw [List.foldl_cons]
    have hex : acc.any (fun g => g.1 == k) = true := by
      rw [List.any_eq_true]
      exact ⟨(k, ts0), List.mem_of_find?_eq_some hfind, by simp⟩
    by_cases hkey : groupKey t == k
    · have hkey' : groupKey t = k := by simpa using hkey
      have hin : acc.any (fun g => g.1 == groupKey t) = true := by
        rw [hkey']; exact hex
      have hstep : (groupStep acc t).find? (fun g => g.1 == k) =
          some (k, ts0 ++ [t]) := by
        simp only [groupStep, hin, if_true]
        rw [find?_map_keyPreserving
            (fun g : String × List CommunityTopic => if g.1 == groupKey t then (g.1, g.2 ++ [t]) else g)
            (by intro x; by_cases hx : x.1 = groupKey t <;> simp [hx]) acc k,
          hfind, Option.map_some']
        simp [hkey']
      rw [ih (groupStep acc t) (ts0 ++ [t]) hstep]
      simp [hkey]
    · have hstep : (groupStep acc t).find? (fun g => g.1 == k) = some (k, ts0) := by
        by_cases hin : acc.any (fun g => g.1 == groupKey t) = true
        · simp only [groupStep, hin, if_true]
          rw [find?_map_keyPreserving
            (fun g : String × List CommunityTopic => if g.1 == groupKey t then (g.1, g.2 ++ [t]) else g)
            (by intro x; by_cases hx : x.1 = groupKey t <;> simp [hx]) acc k,
            hfind, Option.map_some']
          have hne : ¬((k : String) = groupKey t) := by
            intro hc
            apply hkey
            simp [hc.symm]
          simp [hne]
        · simp only [groupStep, hin, if_false, Bool.false_eq_true]
          rw [List.find?_append, hfind]
          rfl
      rw [ih (groupStep acc t) ts0 hstep]
      simp [hkey]

theorem group_find_out (topics : List CommunityTopic)
    (acc : List (String × List CommunityTopic)) (k : String)
    (hfind : acc.find? (fun g => g.1 == k) = none) :
    (topics.foldl groupStep acc).find? (fun g => g.1 == k) =
      (if (topics.filter (fun t => groupKey t == k)).isEmpty then none
       else some (k, topics.filter (fun t => groupKey t == k))) := by
  induction topics generalizing acc with
  | nil => simpa using hfind
  | cons t l ih =>
    rw [List.foldl_cons]
    by_cases hkey : groupKey t == k
    · have hkey' : groupKey t = k := by simpa using hkey
      have hnoin : acc.any (fun g => g.1 == groupKey t) = false := by
        rw [hkey']
        rw [List.find?_eq_none] at hfind
        rw [List.any_eq_false]
        intro g hg
        exact fun hc => hfind g hg hc
      have hstep : (groupStep acc t).find? (fun g => g.1 == k) =
          some (k, [t]) := by
        simp only [groupStep, hnoin, if_false, Bool.false_eq_true]
        rw [List.find?_append, hfind, Option.none_or]
        simp [hkey']
      rw [group_find_in l (groupStep acc t) k [t] hstep]
      simp [hkey]
    · have hstep : (groupStep acc t).find? (fun g => g.1 == k) = none := by
        by_cases hin : acc.any (fun g => g.1 == groupKey t) = true
        · simp only [groupStep, hin, if_true]
          rw [find?_map_keyPreserving
            (fun g : String × List CommunityTopic => if g.1 == groupKey t then (g.1, g.2 ++ [t]) else g)
            (by intro x; by_cases hx : x.1 = groupKey t <;> simp [hx]) acc k,
            hfind, Option.map_none']
        · simp only [groupStep, hin, if_false, Bool.false_eq_true]
          rw [List.find?_append, hfind, Option.none_or]
          rw [find?_cons_eq, if_neg (by simpa using fun hc => hkey (by simp [hc])),
            List.find?_nil]
      rw [ih (groupStep acc t) hstep]
      simp [hkey]

/-- With pairwise-distinct keys, a member is what `find?` on its key returns. -/
theorem find?_of_mem_nodupKeys {β : Type} (l : List (String × β))
    (hn : (l.map Prod.fst).Nodup) (p : String × β) (hp : p ∈ l) :
    l.find? (fun g => g.1 == p.1) = some p := by
  induction l with
  | nil => cases hp
  | cons a l ih =>
    rw [find?_cons_eq]
    rcases List.mem_cons.mp hp with rfl | hp'
    · rw [if_pos (by simp)]
    · have hne : ¬(a.1 == p.1) = true := by
        intro hc
        rw [List.map_cons, List.nodup_cons] at hn
        exact hn.1 (by
          rw [show a.1 = p.1 from by simpa using hc]
          exact List.mem_map.mpr ⟨p, hp', rfl⟩)
      rw [if_neg hne]
      exact ih (by rw [List.map_cons, List.nodup_cons] at hn; exact hn.2) hp'

/-- Every entry of the grouping dict is exactly the sublist of topics with
that group key (nonempty). -/
theorem group_entry_eq_filter (topics : List CommunityTopic)
    (k : String) (ts : List CommunityTopic)
    (hmem : (k, ts) ∈ group_similar_topics topics) :
    ts = topics.filter (fun t => groupKey t == k) ∧ ts ≠ [] := by
  have hfind0 := find?_of_mem_nodupKeys _ (group_keys_nodup topics) _ hmem
  have hfind : List.find? (fun g => g.1 == k) (topics.foldl groupStep []) =
      some (k, ts) := by simpa [group_similar_topics] using hfind0
  rw [group_find_out topics [] k (by simp)] at hfind
  by_cases he : (topics.filter (fun t => groupKey t == k)).isEmpty = true
  · rw [if_pos he] at hfind; cases hfind
  · rw [if_neg he] at hfind
    have := (Option.some.injEq _ _).mp hfind
    have hts : ts = topics.filter (fun t => groupKey t == k) := by
      have := congrArg Prod.snd this
      simpa using this.symm
    refine ⟨hts, ?_⟩
    rw [hts]
    intro hc
    rw [hc] at he
    simp at he

theorem countP_key_eq_one {β : Type} (l : List (String × β))
    (hn : (l.map Prod.fst).Nodup) (q : String × β) (hq : q ∈ l) :
    l.countP (fun g => g.1 == q.1) = 1 := by
  induction l with
  | nil => cases hq
  | cons a l ih =>
    rw [List.countP_cons]
    rw [List.map_cons, List.nodup_cons] at hn
    rcases List.mem_cons.mp hq with rfl | hq'
    · have hzero : l.countP (fun g => g.1 == q.1) = 0 := by
        rw [List.countP_eq_zero]
        intro g hg hc
        exact hn.1 (by
          rw [← show g.1 = q.1 from by simpa using hc]
          exact List.mem_map.mpr ⟨g, hg, rfl⟩)
      rw [hzero]
      simp
    · have hne : ¬(a.1 == q.1) = true := fun hc =>
        hn.1 (by
          rw [show a.1 = q.1 from by simpa using hc]
          exact List.mem_map.mpr ⟨q, hq', rfl⟩)
      rw [ih hn.2 hq']
      simp [hne]

/-- Sorting the suggestion list with the descending-frequency comparison
leaves it pairwise descending in frequency (the comparison is transitive and
total). -/
theorem generate_suggestions_sorted_desc (topics : List CommunityTopic) :
    ((communitySuggestionsRaw topics).mergeSort
      (fun a b => decide (b.frequency ≤ a.frequency))).Pairwise
        (fun a b => b.frequency ≤ a.frequency) := by
  have h : ((communitySuggestionsRaw topics).mergeSort
      (fun a b => decide (b.frequency ≤ a.frequency))).Pairwise
        (fun a b : CommunitySuggestion =>
          decide (b.frequency ≤ a.frequency) = true) :=
    List.sorted_mergeSort
      (fun a b c hab hbc => by
        simp only [decide_eq_true_eq] at hab hbc ⊢
        omega)
      (fun a b => by
        simp only [Bool.or_eq_true, decide_eq_true_eq]
        omega)
      (communitySuggestionsRaw topics)
  exact h.imp (fun hab => of_decide_eq_true hab)

/-- Claim C7: `_generate_doc_suggestions` groups topics by
`category:firstKeyword` (bare category without keywords); every group with at
least two members yields exactly one suggestion whose frequency is the group
size and whose priority is `"high"` iff the size is at least 5 (else
`"medium"`); smaller groups yield nothing; the suggestion list is sorted by
descending frequency and truncated to 20 entries: the returned list is the
20-element prefix of the stably sorted suggestion list, it is pairwise
descending in frequency, and every suggestion it drops has frequency at most
that of every suggestion it keeps. -/
theorem community_suggestions_spec (topics : List CommunityTopic) (k : String)
    (ts : List CommunityTopic) (hmem : (k, ts) ∈ group_similar_topics topics) :
    (ts = topics.filter (fun t => groupKey t == k) ∧ ts ≠ []) ∧
    (2 ≤ ts.length →
      (communitySuggestionsRaw topics).countP (fun s => s.topic == k) = 1 ∧
      mkSuggestion k ts ∈ communitySuggestionsRaw topics ∧
      (mkSuggestion k ts).frequency = (ts.length : Int) ∧
      (mkSuggestion k ts).priority = (if 5 ≤ ts.length then "high" else "medium")) ∧
    (ts.length < 2 → ∀ s ∈ communitySuggestionsRaw topics, s.topic ≠ k) ∧
    (∀ s ∈ generate_doc_suggestions topics, s ∈ communitySuggestionsRaw topics) ∧
    (generate_doc_suggestions topics).length ≤ 20 ∧
    (generate_doc_suggestions topics =
      ((communitySuggestionsRaw topics).mergeSort
        (fun a b => decide (b.frequency ≤ a.frequency))).take 20) ∧
    (generate_doc_suggestions topics).Pairwise
      (fun a b => b.frequency ≤ a.frequency) ∧
    (∀ t ∈ communitySuggestionsRaw topics, t ∉ generate_doc_suggestions topics →
      ∀ s ∈ generate_doc_suggestions topics, t.frequency ≤ s.frequency) := by
  have hnodup := group_keys_nodup topics
  refine ⟨group_entry_eq_filter topics k ts hmem, ?_, ?_, ?_, ?_, rfl, ?_, ?_⟩
  · intro hlen
    refine ⟨?_, List.mem_map.mpr ⟨(k, ts),
      List.mem_filter.mpr ⟨hmem, by simpa using hlen⟩, rfl⟩, rfl, rfl⟩
    have h1 : (communitySuggestionsRaw topics).countP (fun s => s.topic == k) =
        ((group_similar_topics topics).filter
          (fun g => 2 ≤ g.2.length)).countP (fun g => g.1 == k) := by
      rw [communitySuggestionsRaw, List.countP_map]
      rfl
    rw [h1, List.countP_filter]
    apply Nat.le_antisymm
    · calc ((group_similar_topics topics).countP
            (fun a => (a.1 == k) && decide (2 ≤ a.2.length)))
          ≤ (group_similar_topics topics).countP (fun g => g.1 == k) :=
            List.countP_mono_left (fun x _ h => (Bool.and_eq_true _ _ ▸ h).1)
        _ = 1 := countP_key_eq_one _ hnodup (k, ts) hmem
    · rw [Nat.succ_le_iff]
      rw [List.countP_pos_iff]
      exact ⟨(k, ts), hmem, by simpa using hlen⟩
  · intro hlen s hs
    rw [communitySuggestionsRaw, List.mem_map] at hs
    obtain ⟨g, hgf, rfl⟩ := hs
    rw [List.mem_filter] at hgf
    intro heq
    have hgk : g.1 = k := heq
    have hg_eq : g = (k, ts) :=
      List.inj_on_of_nodup_map hnodup hgf.1 hmem (by simpa using hgk)
    have hglen : 2 ≤ g.2.length := by simpa using hgf.2
    rw [hg_eq] at hglen
    have hglen2 : 2 ≤ ts.length := hglen
    omega
  · intro s hs
    exact (List.mergeSort_perm _ _).subset (List.take_subset _ _ hs)
  · exact le_trans (List.length_take_le _ _) (le_refl 20)
  · exact List.Pairwise.sublist (List.take_sublist _ _)
      (generate_suggestions_sorted_desc topics)
  · intro t ht htnot s hs
    have htm : t ∈ (communitySuggestionsRaw topics).mergeSort
        (fun a b => decide (b.frequency ≤ a.frequency)) :=
      (List.mergeSort_perm _ _).mem_iff.mpr ht
    have htd : t ∈ ((communitySuggestionsRaw topics).mergeSort
        (fun a b => decide (b.frequency ≤ a.frequency))).drop 20 := by
      rcases List.mem_append.mp
          (show t ∈ ((communitySuggestionsRaw topics).mergeSort
              (fun a b => decide (b.frequency ≤ a.frequency))).take 20 ++
            ((communitySuggestionsRaw topics).mergeSort
              (fun a b => decide (b.frequency ≤ a.frequency))).drop 20 by
            rw [List.take_append_drop]; exact htm) with h | h
      · exact absurd h htnot
      · exact h
    have hpw := generate_suggestions_sorted_desc topics
    rw [← List.take_append_drop 20 ((communitySuggestionsRaw topics).mergeSort
        (fun a b => decide (b.frequency ≤ a.frequency))),
      List.pairwise_append] at hpw
    exact hpw.2.2 s hs t htd

theorem community_suggestions_spec_witness :
    (communitySuggestionsRaw [topicW1, topicW2]).countP
      (fun s => s.topic == "webhook:retry") = 1 ∧
    (mkSuggestion "webhook:retry" [topicW1, topicW2]).priority = "medium" :=
  have h := community_suggestions_spec [topicW1, topicW2] "webhook:retry"
    [topicW1, topicW2] (by decide)
  ⟨(h.2.1 (by decide)).1, by
    have h2 := (h.2.1 (by decide)).2.2.2
    rw [h2, if_neg (by decide)]⟩

theorem mapM_loop_jStr (xs : List String) (acc : List String) :
    List.mapM.loop jStr (xs.map Json.str) acc = some (acc.reverse ++ xs) := by
  induction xs generalizing acc with
  | nil => simp [List.mapM.loop]
  | cons x xs ih => simp [List.mapM.loop, jStr, ih]

/-- A serialized gap decodes to the very gap that was serialized. -/
theorem gap_json_roundtrip (g : DocumentationGap) :
    gapFromJson (gapToJson g) = some g := by
  simp [gapFromJson, gapToJson, jLookup, jStr, jInt, jStrList,
    List.find?, mapM_loop_jStr]

theorem mapM_loop_gapFromJson (gs : List DocumentationGap)
    (acc : List DocumentationGap) :
    List.mapM.loop gapFromJson (gs.map gapToJson) acc = some (acc.reverse ++ gs) := by
  induction gs generalizing acc with
  | nil => simp [List.mapM.loop]
  | cons g gs ih => simp [List.mapM.loop, gap_json_roundtrip, ih]

/-- Claim C5: reloading a saved report reconstructs every gap exactly; in
particular `id`, `title`, `priority` and `category` survive the round trip. -/
theorem report_json_roundtrip (r : AggregatedReport) :
    reportFromJson (reportToJson r) =
      some { gaps := r.gaps, summary := r.summary,
             sources_analyzed := r.sources_analyzed,
             generated_at := r.generated_at } ∧
    ∀ g ∈ r.gaps,
      (gapFromJson (gapToJson g)).map
          (fun g2 => (g2.id, g2.title, g2.priority, g2.category)) =
        some (g.id, g.title, g.priority, g.category) := by
  constructor
  · simp [reportFromJson, reportToJson, jLookup, jStr, jStrList,
      List.find?, mapM_loop_gapFromJson, mapM_loop_jStr]
  · intro g _
    rw [gap_json_roundtrip]
    rfl

theorem report_json_roundtrip_witness :
    (gapFromJson (gapToJson gapMed)).map
        (fun g2 => (g2.id, g2.title, g2.priority, g2.category)) =
      some (gapMed.id, gapMed.title, gapMed.priority, gapMed.category) :=
  (report_json_roundtrip reportW).2 gapMed (by simp [reportW])

theorem charVal_digitChar : ∀ d : Nat, d < 10 → charVal (digitChar d) = d := by
  decide

theorem map_charVal_natDecimalChars (n : Nat) (hn : n ≠ 0) :
    (natDecimalChars n).map charVal = (Nat.digits 10 n).reverse := by
  unfold natDecimalChars
  rw [if_neg hn, List.map_map]
  have h : ∀ d ∈ (Nat.digits 10 n).reverse, (charVal ∘ digitChar) d = id d := by
    intro d hd
    exact charVal_digitChar d (Nat.digits_lt_base (by norm_num) (List.mem_reverse.mp hd))
  rw [List.map_congr_left h, List.map_id]

theorem ofDigits_replicate_zero (k : Nat) :
    Nat.ofDigits 10 (List.replicate k 0) = 0 := by
  induction k with
  | zero => rfl
  | succ k ih =>
    rw [List.replicate_succ, Nat.ofDigits_cons, ih]

theorem decodeDecimal_pad4 (n : Nat) : decodeDecimal (pad4Chars n) = n := by
  by_cases hn : n = 0
  · subst hn; decide
  · unfold decodeDecimal pad4Chars
    rw [List.map_append, List.map_replicate,
      show charVal (digitChar 0) = 0 from rfl,
      map_charVal_natDecimalChars n hn, List.reverse_append, List.reverse_reverse,
      List.reverse_replicate, Nat.ofDigits_append, Nat.ofDigits_digits,
      ofDigits_replicate_zero]
    simp

theorem gapIdNum_mkGapId (tag : String) (htag : tag.data.length = 5) (n : Nat) :
    gapIdNum (mkGapId tag n) = n := by
  unfold gapIdNum mkGapId
  show decodeDecimal ((tag.data ++ pad4Chars n).drop 5) = n
  rw [← htag, List.drop_left, decodeDecimal_pad4]

theorem strStarts_mkGapId (tag : String) (n : Nat) :
    strStarts (mkGapId tag n) tag = true := by
  show tag.data.isPrefixOf (tag.data ++ pad4Chars n) = true
  exact List.isPrefixOf_iff_prefix.mpr (List.prefix_append _ _)

theorem gapLoop_foldl {α : Type} (mk : Nat → α → DocumentationGap)
    (l : List α) (st : Nat × List DocumentationGap) :
    l.foldl (gapLoop mk) st =
      (st.1 + l.length,
       st.2 ++ (List.enumFrom (st.1 + 1) l).map (fun p => mk p.1 p.2)) := by
  induction l generalizing st with
  | nil => simp
  | cons x l ih =>
    rw [List.foldl_cons, ih]
    simp only [gapLoop, List.enumFrom, List.map_cons, List.length_cons]
    refine Prod.ext ?_ ?_
    · show st.1 + 1 + l.length = st.1 + (l.length + 1)
      omega
    · show (st.2 ++ [mk (st.1 + 1) x]) ++ _ = st.2 ++ (mk (st.1 + 1) x :: _)
      rw [List.append_assoc, List.singleton_append]

theorem aggregate_loops_eq (cs : List CodeChange) (ms : List CommunitySuggestion)
    (ss : List SearchSuggestion) :
    (ss.foldl (gapLoop searchGap)
      (ms.foldl (gapLoop commGap)
        (cs.foldl (gapLoop codeChangeGap) (0, [])))).2 = preGaps cs ms ss := by
  rw [gapLoop_foldl, gapLoop_foldl, gapLoop_foldl]
  simp [preGaps, List.append_assoc]

theorem preGaps_ids_decode (cs : List CodeChange) (ms : List CommunitySuggestion)
    (ss : List SearchSuggestion) :
    ((preGaps cs ms ss).map DocumentationGap.id).map gapIdNum =
      List.range' 1 (cs.length + (ms.length + ss.length)) := by
  unfold preGaps
  rw [List.map_append, List.map_append, List.map_append, List.map_append,
    List.map_map, List.map_map, List.map_map, List.map_map, List.map_map,
    List.map_map]
  have h1 : ∀ p ∈ List.enumFrom 1 cs,
      ((gapIdNum ∘ DocumentationGap.id) ∘ (fun p => codeChangeGap p.1 p.2)) p =
        Prod.fst p := by
    intro p _
    exact gapIdNum_mkGapId "CODE-" (by decide) p.1
  have h2 : ∀ p ∈ List.enumFrom (cs.length + 1) ms,
      ((gapIdNum ∘ DocumentationGap.id) ∘ (fun p => commGap p.1 p.2)) p =
        Prod.fst p := by
    intro p _
    exact gapIdNum_mkGapId "COMM-" (by decide) p.1
  have h3 : ∀ p ∈ List.enumFrom (cs.length + ms.length + 1) ss,
      ((gapIdNum ∘ DocumentationGap.id) ∘ (fun p => searchGap p.1 p.2)) p =
        Prod.fst p := by
    intro p _
    exact gapIdNum_mkGapId "SRCH-" (by decide) p.1
  rw [List.map_congr_left h1, List.map_congr_left h2, List.map_congr_left h3,
    List.enumFrom_map_fst, List.enumFrom_map_fst, List.enumFrom_map_fst]
  have hr : ∀ a b c : Nat,
      List.range' 1 a ++ List.range' (a + 1) b ++ List.range' (a + b + 1) c =
        List.range' 1 (a + (b + c)) := by
    intro a b c
    rw [show a + 1 = 1 + a from by omega, List.range'_append_1,
      show a + b + 1 = 1 + (b + a) from by omega, List.range'_append_1]
    congr 1
    omega
  exact hr cs.length ms.length ss.length

theorem dedup_ids_sublist_aux (l acc : List DocumentationGap) :
    ((l.foldl dedupStep acc).map DocumentationGap.id).Sublist
      (acc.map DocumentationGap.id ++ l.map DocumentationGap.id) := by
  induction l generalizing acc with
  | nil => simp
  | cons g l ih =>
    rw [List.foldl_cons]
    refine (ih (dedupStep acc g)).trans ?_
    by_cases hc : acc.any (fun x => dedupKey x == dedupKey g) = true
    · have hmap : (dedupStep acc g).map DocumentationGap.id =
          acc.map DocumentationGap.id := by
        simp only [dedupStep, hc, if_true, List.map_map]
        apply List.map_congr_left
        intro x _
        by_cases hk : dedupKey x = dedupKey g <;> simp [hk, mergeGapInto]
      rw [hmap, List.map_cons]
      exact List.Sublist.append_left (List.sublist_cons_self _ _) _
    · simp only [dedupStep, hc, if_false, Bool.false_eq_true, List.map_append,
        List.map_cons, List.map_nil]
      rw [List.append_assoc]
      exact List.Sublist.refl _

theorem dedup_ids_sublist (l : List DocumentationGap) :
    ((deduplicate_gaps l).map DocumentationGap.id).Sublist
      (l.map DocumentationGap.id) := by
  exact dedup_ids_sublist_aux l []

theorem aggregate_core_ids (cs : List CodeChange) (ms : List CommunitySuggestion)
    (ss : List SearchSuggestion) :
    (((deduplicate_gaps (preGaps cs ms ss)).mergeSort gapSortLE).map
      DocumentationGap.id).Nodup ∧
    ∀ g ∈ (deduplicate_gaps (preGaps cs ms ss)).mergeSort gapSortLE,
      strStarts g.id "CODE-" = true ∨ strStarts g.id "COMM-" = true ∨
        strStarts g.id "SRCH-" = true := by
  have hperm := List.mergeSort_perm (deduplicate_gaps (preGaps cs ms ss)) gapSortLE
  have hprenodup : ((preGaps cs ms ss).map DocumentationGap.id).Nodup := by
    apply List.Nodup.of_map gapIdNum
    rw [preGaps_ids_decode]
    exact List.nodup_range' _ _
  have hdednodup :
      ((deduplicate_gaps (preGaps cs ms ss)).map DocumentationGap.id).Nodup :=
    List.Nodup.sublist (dedup_ids_sublist _) hprenodup
  constructor
  · exact ((hperm.map DocumentationGap.id).nodup_iff).mpr hdednodup
  · intro g hg
    have hgd : g ∈ deduplicate_gaps (preGaps cs ms ss) := hperm.subset hg
    have hid : g.id ∈ (deduplicate_gaps (preGaps cs ms ss)).map DocumentationGap.id :=
      List.mem_map_of_mem _ hgd
    have hid2 : g.id ∈ (preGaps cs ms ss).map DocumentationGap.id :=
      (dedup_ids_sublist _).subset hid
    unfold preGaps at hid2
    rw [List.map_append, List.map_append, List.mem_append, List.mem_append] at hid2
    rcases hid2 with (hA | hB) | hC
    · rcases List.mem_map.mp hA with ⟨q, hqmem, hq⟩
      rcases List.mem_map.mp hqmem with ⟨p, _, rfl⟩
      exact Or.inl (by rw [← hq]; exact strStarts_mkGapId "CODE-" p.1)
    · rcases List.mem_map.mp hB with ⟨q, hqmem, hq⟩
      rcases List.mem_map.mp hqmem with ⟨p, _, rfl⟩
      exact Or.inr (Or.inl (by rw [← hq]; exact strStarts_mkGapId "COMM-" p.1))
    · rcases List.mem_map.mp hC with ⟨q, hqmem, hq⟩
      rcases List.mem_map.mp hqmem with ⟨p, _, rfl⟩
      exact Or.inr (Or.inr (by rw [← hq]; exact strStarts_mkGapId "SRCH-" p.1))

/-- Claim C6: across every combination of the three optional inputs, the gap
ids of `aggregate_all` are pairwise distinct (one counter threads through all
three source loops, the decimal id encodes that counter injectively,
deduplication only drops gaps and the final sort only permutes), and every id
carries one of the three source tags. -/
theorem aggregate_gap_ids_nodup (codeRes : Option CodeResult)
    (commRes : Option CommunityResult) (algRes : Option AlgoliaResult) :
    (((aggregate_all codeRes commRes algRes).gaps.map DocumentationGap.id).Nodup) ∧
    ∀ g ∈ (aggregate_all codeRes commRes algRes).gaps,
      strStarts g.id "CODE-" = true ∨ strStarts g.id "COMM-" = true ∨
        strStarts g.id "SRCH-" = true := by
  have hgaps : (aggregate_all codeRes commRes algRes).gaps =
      (deduplicate_gaps (preGaps ((codeRes.map CodeResult.changes).getD [])
        ((commRes.map CommunityResult.suggested_docs).getD [])
        ((algRes.map AlgoliaResult.suggested_docs).getD []))).mergeSort gapSortLE := by
    show ((deduplicate_gaps (((algRes.map AlgoliaResult.suggested_docs).getD []).foldl
        (gapLoop searchGap)
        (((commRes.map CommunityResult.suggested_docs).getD []).foldl (gapLoop commGap)
          (((codeRes.map CodeResult.changes).getD []).foldl
            (gapLoop codeChangeGap) (0, [])))).2).mergeSort gapSortLE) = _
    rw [aggregate_loops_eq]
  rw [hgaps]
  exact aggregate_core_ids _ _ _

theorem aggregate_gap_ids_nodup_witness :
    (((aggregate_all (some codeResW) none none).gaps.map
      DocumentationGap.id).Nodup) ∧
    ∀ g ∈ (aggregate_all (some codeResW) none none).gaps,
      strStarts g.id "CODE-" = true ∨ strStarts g.id "COMM-" = true ∨
        strStarts g.id "SRCH-" = true :=
  aggregate_gap_ids_nodup (some codeResW) none none

end DocsPipeline
